import Mathlib

/-!
Verification development for the bpfvv BPF verifier-log viewer.

The definitions below are a shallow embedding of `src/parser.ts` and the
state-reconstruction / dependency-analysis engine of `src/app.ts`.
Strings are modelled as `List Char`; a JavaScript `Map` is modelled as an
insertion-ordered association list (`jsSet` updates in place or appends,
exactly like `Map.set`); a JS value that may be `null`/`undefined` is
modelled with `Option`.  The hand-written regular expressions of the
source are translated into explicit character scanners with the same
alternative order and greediness.
-/

namespace Bpfvv

abbrev Str : Type := List Char

/-- RE_WHITESPACE character class (the log only ever contains spaces and tabs). -/
def isWs (c : Char) : Bool := c == ' ' || c == '\t' || c == '\n' || c == '\r'

/-- consumeSpaces from parser.ts: strip the leading whitespace run, if any. -/
def consumeSpaces (s : Str) : Str := s.dropWhile isWs

/-- consumeString from parser.ts: `str.startsWith(toMatch)` together with the
remaining input on success. -/
def dropPre? : Str → Str → Option Str
  | [], s => some s
  | _ :: _, [] => none
  | p :: pt, c :: ct => if p = c then dropPre? pt ct else none

def isHexL (c : Char) : Bool := c.isDigit || (97 ≤ c.toNat && c.toNat ≤ 102)

def isLowerL (c : Char) : Bool := 97 ≤ c.toNat && c.toNat ≤ 122

/-- character class of RE_CALL_TARGET: `[0-9a-z_#+-]`. -/
def isCallTargetChar (c : Char) : Bool :=
  c.isDigit || isLowerL c || c == '_' || c == '#' || c == '+' || c == '-'

/-- parseInt(_, 10) on a digit string. -/
def digitsToNat (ds : Str) : Nat := ds.foldl (fun n c => 10 * n + (c.toNat - 48)) 0

/-- JavaScript number-to-string coercion for the integers appearing in slot ids. -/
def intToStr (i : Int) : Str :=
  if i < 0 then '-' :: Nat.toDigits 10 i.natAbs else Nat.toDigits 10 i.natAbs

/-- Map.set: overwrite in place when the key exists, append otherwise. -/
def jsSet {α : Type} : List (Str × α) → Str → α → List (Str × α)
  | [], k, v => [(k, v)]
  | (k0, v0) :: t, k, v =>
    if k0 = k then (k0, v) :: t else (k0, v0) :: jsSet t k v

/-- Map.get: the entry stored under the key, if any. -/
def jsGet {α : Type} : List (Str × α) → Str → Option α
  | [], _ => none
  | (k0, v0) :: t, k => if k0 = k then some v0 else jsGet t k

/-- Map.delete (keys are unique in every map the app builds). -/
def jsDel {α : Type} : List (Str × α) → Str → List (Str × α)
  | [], _ => []
  | (k0, v0) :: t, k => if k0 = k then jsDel t k else (k0, v0) :: jsDel t k

/-! Regular-expression scanners of parser.ts. -/

/-- RE_PROGRAM_COUNTER `^([0-9]+):` — digits of the pc and the rest on a match. -/
def rePC (s : Str) : Option Str × Str :=
  let ds := s.takeWhile Char.isDigit
  if ds.isEmpty then (none, s)
  else
    match s.drop ds.length with
    | ':' :: r => (some ds, r)
    | _ => (none, s)

/-- RE_BPF_OPCODE `^\(([0-9a-f][0-9a-f])\)`. -/
def reOpcode (s : Str) : Option (Char × Char) × Str :=
  match s with
  | '(' :: h1 :: h2 :: ')' :: r =>
    if isHexL h1 && isHexL h2 then (some (h1, h2), r) else (none, s)
  | _ => (none, s)

/-- RE_REGISTER `^(r10|r[0-9]|w[0-9])` with the alternatives tried in order. -/
def reRegister (s : Str) : Option Str × Str :=
  match s with
  | 'r' :: '1' :: '0' :: r => (some ['r', '1', '0'], r)
  | 'r' :: d :: r => if d.isDigit then (some ['r', d], r) else (none, s)
  | 'w' :: d :: r => if d.isDigit then (some ['w', d], r) else (none, s)
  | _ => (none, s)

/-- width alternation `(u8|u16|u32|u64)` of RE_MEMORY_REF. -/
def reMemWidth : Str → Option (Str × Str)
  | 'u' :: '8' :: r => some (['u', '8'], r)
  | 'u' :: '1' :: '6' :: r => some (['u', '1', '6'], r)
  | 'u' :: '3' :: '2' :: r => some (['u', '3', '2'], r)
  | 'u' :: '6' :: '4' :: r => some (['u', '6', '4'], r)
  | _ => none

/-- register alternation `(r10|r[0-9])` of RE_MEMORY_REF. -/
def reMemReg : Str → Option (Str × Str)
  | 'r' :: '1' :: '0' :: r => some (['r', '1', '0'], r)
  | 'r' :: d :: r => if d.isDigit then some (['r', d], r) else none
  | _ => none

/-- RE_MEMORY_REF `^\*\((u8|u16|u32|u64) \*\)\((r10|r[0-9]) ([+-][0-9]+)\)`;
yields the width token, the address register and the signed offset. -/
def reMemRef (s : Str) : Option (Str × Str × Int) × Str :=
  match dropPre? ("*(").data s with
  | none => (none, s)
  | some s1 =>
    match reMemWidth s1 with
    | none => (none, s)
    | some (w, s2) =>
      match dropPre? (" *)(").data s2 with
      | none => (none, s)
      | some s3 =>
        match reMemReg s3 with
        | none => (none, s)
        | some (reg, s4) =>
          match s4 with
          | ' ' :: sgn :: s5 =>
            if sgn == '+' || sgn == '-' then
              let ds := s5.takeWhile Char.isDigit
              if ds.isEmpty then (none, s)
              else
                match s5.drop ds.length with
                | ')' :: r =>
                  let off : Int :=
                    if sgn == '-' then -(Int.ofNat (digitsToNat ds))
                    else Int.ofNat (digitsToNat ds)
                  (some (w, reg, off), r)
                | _ => (none, s)
            else (none, s)
          | _ => (none, s)

/-- decimal arm `[+-]?[0-9]+` of RE_IMM_VALUE. -/
def reImmDec (s : Str) : Option Str × Str :=
  match s with
  | c :: r =>
    if c == '+' || c == '-' then
      let ds := r.takeWhile Char.isDigit
      if ds.isEmpty then (none, s) else (some (c :: ds), r.drop ds.length)
    else
      let ds := s.takeWhile Char.isDigit
      if ds.isEmpty then (none, s) else (some ds, s.drop ds.length)
  | [] => (none, s)

/-- RE_IMM_VALUE `^(0x[0-9a-f]+|[+-]?[0-9]+)`, hex alternative first. -/
def reImm (s : Str) : Option Str × Str :=
  match s with
  | '0' :: 'x' :: r =>
    let hs := r.takeWhile isHexL
    if hs.isEmpty then reImmDec s else (some ('0' :: 'x' :: hs), r.drop hs.length)
  | _ => reImmDec s

/-- RE_CALL_TARGET `^call ([0-9a-z_#+-]+)`. -/
def reCallTarget (s : Str) : Option Str × Str :=
  match dropPre? ("call ").data s with
  | none => (none, s)
  | some s1 =>
    let t := s1.takeWhile isCallTargetChar
    if t.isEmpty then (none, s) else (some t, s1.drop t.length)

/-- RE_JMP_TARGET `^goto (pc[+-][0-9]+)`. -/
def reJmpTarget (s : Str) : Option Str × Str :=
  match dropPre? ("goto pc").data s with
  | none => (none, s)
  | some s1 =>
    match s1 with
    | sgn :: s2 =>
      if sgn == '+' || sgn == '-' then
        let ds := s2.takeWhile Char.isDigit
        if ds.isEmpty then (none, s)
        else (some ('p' :: 'c' :: sgn :: ds), s2.drop ds.length)
      else (none, s)
    | [] => (none, s)

/-- RE_FRAME_ID `^frame([0-9]+): `. -/
def reFrameId (s : Str) : Option Nat × Str :=
  match dropPre? ("frame").data s with
  | none => (none, s)
  | some s1 =>
    let ds := s1.takeWhile Char.isDigit
    if ds.isEmpty then (none, s)
    else
      match dropPre? (": ").data (s1.drop ds.length) with
      | none => (none, s)
      | some r => (some (digitsToNat ds), r)

/-! Data model of parser.ts. -/

inductive OperandType
  | UNKNOWN | REG | FP | IMM | MEM
deriving DecidableEq

inductive OpcodeSource
  | K | X
deriving DecidableEq

structure BpfOpcode where
  iclass : Nat
  code : Nat
  source : OpcodeSource
deriving DecidableEq

inductive BpfJmpKind
  | NONE | EXIT | UNCONDITIONAL_GOTO | CONDITIONAL_GOTO | HELPER_CALL | BPF2BPF_CALL
deriving DecidableEq

structure RawLineLocation where
  offset : Int
  size : Nat
deriving DecidableEq

structure MemRef where
  address_reg : Str
  offset : Int
deriving DecidableEq

structure BpfOperand where
  type : OperandType
  id : Str
  size : Nat
  memref : Option MemRef := none
  location : Option RawLineLocation := none
deriving DecidableEq

structure BpfCond where
  left : BpfOperand
  op : Str
  right : BpfOperand
deriving DecidableEq

structure BpfJmpInstruction where
  target : Str
  cond : Option BpfCond := none
  kind : BpfJmpKind
deriving DecidableEq

structure BpfAluInstruction where
  operator : Str
  dst : BpfOperand
  src : BpfOperand
deriving DecidableEq

structure BpfInstruction where
  pc : Option Nat := none
  opcode : BpfOpcode
  reads : List Str
  writes : List Str
  jmp : Option BpfJmpInstruction := none
  alu : Option BpfAluInstruction := none
  location : Option RawLineLocation := none
deriving DecidableEq

inductive ParsedLineType
  | UNRECOGNIZED | INSTRUCTION
deriving DecidableEq

structure BpfStateExpr where
  id : Str
  value : Str
  rawKey : Str
  frame : Option Nat := none
deriving DecidableEq

/-- A parsed log line; `bpfStateExprs` is `[]` where the source leaves the
field undefined (it is only ever read on INSTRUCTION lines, where it is set). -/
structure ParsedLine where
  idx : Option Nat := none
  type : ParsedLineType
  raw : Str
  bpfIns : Option BpfInstruction := none
  bpfStateExprs : List BpfStateExpr := []
deriving DecidableEq

def BPF_SCRATCH_REGS : List Str :=
  [("r1").data, ("r2").data, ("r3").data, ("r4").data, ("r5").data]

def BPF_CALLEE_SAVED_REGS : List Str :=
  [("r6").data, ("r7").data, ("r8").data, ("r9").data]

/-! State-comment scanning. -/

/-- The value scan of parseBpfStateExpr: walk forward, pushing on `(` and
popping on `)` (the source keeps an explicit stack and, through its missing
`else`, re-examines the character after a push — semantics preserved here),
returning how many characters belong to the value. -/
def scanLen : Str → List Char → Nat
  | [], _ => 0
  | c :: t, stack =>
    let stack1 := if c = '(' then '(' :: stack else stack
    if c = ')' ∧ stack1 ≠ [] then 1 + scanLen t stack1.tail
    else if c = ' ' ∧ stack1 = [] then 0
    else 1 + scanLen t stack1

/-- Depth-counter scan, written from the spec's words: scan forward from the
`=`, incrementing on `(` and decrementing on `)`, and stop only at a space at
depth zero or at the end of the string. -/
def scanDepthSpec : Str → Nat → Nat
  | [], _ => 0
  | c :: t, d =>
    if c = '(' then 1 + scanDepthSpec t (d + 1)
    else if c = ')' ∧ 0 < d then 1 + scanDepthSpec t (d - 1)
    else if c = ' ' ∧ d = 0 then 0
    else 1 + scanDepthSpec t d

/-- parseBpfStateExpr: split one `key=value` token off the comment. -/
def parseBpfStateExpr (s : Str) : Option BpfStateExpr × Str :=
  match s.findIdx? (fun c => c == '=') with
  | none => (none, s)
  | some eqIdx =>
    let key := s.take eqIdx
    let id0 := if ("_w").data.isSuffixOf key then key.take (key.length - 2) else key
    let id1 := id0.map Char.toLower
    let after := s.drop (eqIdx + 1)
    let len := scanLen after []
    (some { id := id1, value := after.take len, rawKey := key, frame := none },
     after.drop len)

/-- The `while (rest.length > 0)` loop of parseBpfStateExprs.  Every
successful `parseBpfStateExpr` consumes at least the `=` character, so the
loop runs at most `rest.length` times; the fuel `rest.length + 1` supplied at
the call site therefore never runs out and the definition agrees with the
unbounded source loop. -/
def exprsLoop : Nat → Nat → Str → List BpfStateExpr × Str
  | 0, _, rest => ([], rest)
  | Nat.succ fuel, frameId, rest =>
    if rest.length = 0 then ([], rest)
    else
      match parseBpfStateExpr rest with
      | (none, r) => ([], consumeSpaces r)
      | (some e, r) =>
        let r1 := consumeSpaces r
        let res := exprsLoop fuel frameId r1
        ({ e with frame := some frameId } :: res.1, res.2)

/-- parseBpfStateExprs: `; `, optional `frameN: `, then `key=value` tokens. -/
def parseBpfStateExprs (s : Str) : List BpfStateExpr × Str :=
  match dropPre? ("; ").data s with
  | none => ([], s)
  | some rest0 =>
    let fr := reFrameId rest0
    let frameId := fr.1.getD 0
    exprsLoop (fr.2.length + 1) frameId fr.2

/-! Opcode and operand decoding. -/

/-- parseInt(c, 16) for one lowercase hex digit. -/
def hexVal (c : Char) : Nat := if c.isDigit then c.toNat - 48 else c.toNat - 97 + 10

/-- parseOpcodeHex: high nibble = operation code, low nibble = sclass;
class = sclass & 0x7, source = X iff bit 3 of sclass is set. -/
def parseOpcodeHex (h1 h2 : Char) : BpfOpcode :=
  let code := hexVal h1
  let sclass := hexVal h2
  { code := code, iclass := sclass &&& 7,
    source := if sclass >>> 3 = 1 then OpcodeSource.X else OpcodeSource.K }

/-- registerOp: `wN` is a 4-byte alias of `rN`; everything else is 8 bytes. -/
def registerOp (reg : Str) : BpfOperand :=
  match reg with
  | 'w' :: t => { id := 'r' :: t, type := OperandType.REG, size := 4 }
  | _ => { id := reg, type := OperandType.REG, size := 8 }

/-- immOp: immediates share the dummy id `IMM` (default size 8). -/
def immOp (_imm : Str) : BpfOperand :=
  { id := ("IMM").data, type := OperandType.IMM, size := 8 }

/-- CAST_TO_SIZE (the widths are exactly the four keys of the source map). -/
def castToSize (w : Str) : Nat :=
  if w = ("u8").data then 1
  else if w = ("u16").data then 2
  else if w = ("u32").data then 4
  else 8

/-- parseMemoryRef: `r10`-based references become FP slots `fp<offset>`,
all other memory references share the dummy id `MEM`. -/
def parseMemoryRef (s : Str) : Option BpfOperand × Str :=
  match reMemRef s with
  | (none, r) => (none, r)
  | (some (w, areg, off), r) =>
    let size := castToSize w
    if areg = ("r10").data then
      (some { id := ("fp").data ++ intToStr off, type := OperandType.FP,
              size := size, memref := some { address_reg := areg, offset := off } }, r)
    else
      (some { id := ("MEM").data, type := OperandType.MEM,
              size := size, memref := some { address_reg := areg, offset := off } }, r)

def parseAluDst (s : Str) : Option BpfOperand × Str :=
  match reRegister s with
  | (some m, r) => (some (registerOp m), r)
  | (none, _) => parseMemoryRef s

def parseAluSrc (s : Str) : Option BpfOperand × Str :=
  match reRegister s with
  | (some m, r) => (some (registerOp m), r)
  | (none, _) =>
    match parseMemoryRef s with
    | (some op, r) => (some op, r)
    | (none, _) =>
      match reImm s with
      | (some m, r) => (some (immOp m), r)
      | (none, _) => (none, s)

/-- collectReads, with the pushes in source order: destination when the
operator is compound, address registers of MEM operands, then the source
unless it is an immediate. -/
def collectReads (operator : Str) (dst src : BpfOperand) : List Str :=
  (if operator ≠ ("=").data then [dst.id] else []) ++
  (if src.type = OperandType.MEM then (src.memref.map MemRef.address_reg).toList else []) ++
  (if dst.type = OperandType.MEM then (dst.memref.map MemRef.address_reg).toList else []) ++
  (if src.type ≠ OperandType.IMM then [src.id] else [])

def BPF_ALU_OPERATORS : List Str :=
  [("=").data, ("+=").data, ("-=").data, ("*=").data, ("/=").data, ("%=").data,
   ("&=").data, ("|=").data, ("^=").data, ("<<=").data, (">>=").data,
   ("s>>=").data, ("s<<=").data]

def BPF_COND_OPERATORS : List Str :=
  [("==").data, ("!=").data, ("<").data, ("<=").data, (">").data, (">=").data,
   ("s<").data, ("s<=").data, ("s>").data, ("s>=").data]

/-- The operator loops of parseAluInstruction / parseConditionalJmp: try the
candidates in list order and keep the first prefix match. -/
def findOperator : List Str → Str → Option (Str × Str)
  | [], _ => none
  | op :: ops, rest =>
    match dropPre? op rest with
    | some r => some (op, consumeSpaces r)
    | none => findOperator ops rest

def parseAluInstruction (s : Str) (opcode : BpfOpcode) : Option BpfInstruction × Str :=
  match parseAluDst s with
  | (none, _) => (none, s)
  | (some dst0, dstRest) =>
    let dst := { dst0 with location := some { offset := -(Int.ofNat s.length), size := s.length - dstRest.length } }
    let rest1 := consumeSpaces dstRest
    match findOperator BPF_ALU_OPERATORS rest1 with
    | none => (none, s)
    | some (operator, rest2) =>
      match parseAluSrc rest2 with
      | (none, _) => (none, s)
      | (some src0, srcRest) =>
        let src := { src0 with location := some { offset := -(Int.ofNat rest2.length), size := rest2.length - srcRest.length } }
        (some { opcode := opcode,
                alu := some { operator := operator, dst := dst, src := src },
                reads := collectReads operator dst src,
                writes := [dst.id] },
         consumeSpaces srcRest)

/-- startsWith('pc+') || startsWith('pc-') — the subprogram-call heuristic. -/
def isPcTarget (t : Str) : Bool :=
  (dropPre? ("pc+").data t).isSome || (dropPre? ("pc-").data t).isSome

def helperCall (opcode : BpfOpcode) (target : Str) : BpfInstruction :=
  { opcode := opcode,
    jmp := some { target := target, kind := BpfJmpKind.HELPER_CALL },
    reads := BPF_SCRATCH_REGS,
    writes := ("r0").data :: BPF_SCRATCH_REGS }

def bpf2bpfCall (opcode : BpfOpcode) (target : Str) : BpfInstruction :=
  { opcode := opcode,
    jmp := some { target := target, kind := BpfJmpKind.BPF2BPF_CALL },
    reads := BPF_SCRATCH_REGS,
    writes := ("r0").data :: BPF_CALLEE_SAVED_REGS }

def parseCall (s : Str) (opcode : BpfOpcode) : Option BpfInstruction × Str :=
  match reCallTarget s with
  | (none, _) => (none, s)
  | (some target, rest) =>
    let ins := if isPcTarget target then bpf2bpfCall opcode target else helperCall opcode target
    (some { ins with location := some { offset := -(Int.ofNat s.length), size := 5 + target.length } }, rest)

def parseCondOp (s : Str) : Option BpfOperand × Str :=
  match reRegister s with
  | (some m, r) => (some (registerOp m), r)
  | (none, _) =>
    match reImm s with
    | (some m, r) => (some (immOp m), r)
    | (none, _) => (none, s)

def parseConditionalJmp (s : Str) (opcode : BpfOpcode) : Option BpfInstruction × Str :=
  match dropPre? ("if ").data s with
  | none => (none, s)
  | some rest0 =>
    match parseCondOp rest0 with
    | (none, _) => (none, s)
    | (some l0, lRest) =>
      let left := { l0 with location := some { offset := -(Int.ofNat rest0.length), size := rest0.length - lRest.length } }
      let rest1 := consumeSpaces lRest
      match findOperator BPF_COND_OPERATORS rest1 with
      | none => (none, s)
      | some (operator, rest2) =>
        match parseCondOp rest2 with
        | (none, _) => (none, s)
        | (some r0, rRest) =>
          let right := { r0 with location := some { offset := -(Int.ofNat rest2.length), size := rest2.length - rRest.length } }
          let rest3 := consumeSpaces rRest
          match reJmpTarget (consumeSpaces rest3) with
          | (none, _) => (none, s)
          | (some target, tRest) =>
            (some { opcode := opcode,
                    jmp := some { target := target,
                                  cond := some { left := left, op := operator, right := right },
                                  kind := BpfJmpKind.CONDITIONAL_GOTO },
                    reads := [left.id, right.id],
                    writes := [] },
             consumeSpaces tRest)

def parseUnconditionalJmp (s : Str) (opcode : BpfOpcode) : Option BpfInstruction × Str :=
  match dropPre? ("goto ").data s with
  | none => (none, s)
  | some _ =>
    match reJmpTarget s with
    | (none, _) => (none, s)
    | (some t, r) =>
      (some { opcode := opcode,
              jmp := some { target := t, kind := BpfJmpKind.UNCONDITIONAL_GOTO },
              reads := [], writes := [] }, r)

/-- parseJmpInstruction: dispatch on the operation code.  The source lists
only CALL (0x8), JEQ/JGT/JGE/JSET/JSGT/JSGE (0x1,0x2,0x3,0x5,0x6,0x7) and
JA (0x0); every other code, EXIT (0x9) included, falls to the default and
yields no instruction. -/
def parseJmpInstruction (s : Str) (oc : BpfOpcode) : Option BpfInstruction × Str :=
  match oc.code with
  | 8 => parseCall s oc
  | 1 | 2 | 3 | 5 | 6 | 7 => parseConditionalJmp s oc
  | 0 => parseUnconditionalJmp s oc
  | _ => (none, s)

def parseInstruction (s : Str) (oc : BpfOpcode) : Option BpfInstruction × Str :=
  match oc.iclass with
  | 0 | 1 | 2 | 3 | 4 | 7 => parseAluInstruction s oc
  | 5 | 6 => parseJmpInstruction s oc
  | _ => (none, s)

def parseOpcodeIns (s : Str) (pc : Nat) : Option BpfInstruction × Str :=
  match reOpcode s with
  | (some (h1, h2), rest) =>
    let oc := parseOpcodeHex h1 h2
    match parseInstruction (consumeSpaces rest) oc with
    | (some ins, r) => (some { ins with pc := some pc }, r)
    | (none, r) => (none, r)
  | (none, _) => (none, s)

/-- parseLine: optional pc prefix, opcode+instruction, optional state comment;
any failure yields an UNRECOGNIZED line carrying the raw text. -/
def parseLine (rawLine : Str) : ParsedLine :=
  match rePC (consumeSpaces rawLine) with
  | (some pcs, rest) =>
    match parseOpcodeIns (consumeSpaces rest) (digitsToNat pcs) with
    | (some ins, insRest) =>
      { type := ParsedLineType.INSTRUCTION, raw := rawLine, bpfIns := some ins,
        bpfStateExprs := (parseBpfStateExprs (consumeSpaces insRest)).1 }
    | (none, _) => { type := ParsedLineType.UNRECOGNIZED, raw := rawLine }
  | (none, _) => { type := ParsedLineType.UNRECOGNIZED, raw := rawLine }

/-! State-reconstruction engine of src/app.ts. -/

inductive Effect
  | NONE | READ | WRITE | UPDATE
deriving DecidableEq

/-- One slot of the value map; `value = none` models a stored `undefined`. -/
structure BpfValue where
  value : Option Str
  effect : Effect
deriving DecidableEq

/-- makeValue, including the `fp0` → `fp-0` display hack. -/
def makeValue (value : Str) (effect : Effect) : BpfValue :=
  { value := some (if value = ("fp0").data then ("fp-0").data else value),
    effect := effect }

/-- A machine-state snapshot.  A map entry holding `none` models the `null`
stored for the undefined registers of the initial state. -/
structure BpfState where
  values : List (Str × Option BpfValue)
  lastKnownWrites : List (Str × Option Nat)
  frame : Nat
  idx : Option Nat
  pc : Option Nat
deriving DecidableEq

def initialBpfState : BpfState :=
  let v0 : List (Str × Option BpfValue) :=
    [(("r0").data, none), (("r1").data, none), (("r2").data, none),
     (("r3").data, none), (("r4").data, none), (("r5").data, none),
     (("r6").data, none), (("r7").data, none), (("r8").data, none),
     (("r9").data, none)]
  let v1 := jsSet v0 ("r1").data (some (makeValue ("ctx()").data Effect.NONE))
  let v2 := jsSet v1 ("r10").data (some (makeValue ("fp0").data Effect.NONE))
  { values := v2,
    lastKnownWrites := jsSet (jsSet [] ("r1").data (some 0)) ("r10").data (some 0),
    frame := 0, idx := some 0, pc := some 0 }

/-- `map.get(k)?.value` — undefined when the key is absent, the entry is
null, or the stored value field is itself undefined. -/
def valStr? (ov : Option (Option BpfValue)) : Option Str :=
  match ov with
  | some (some v) => v.value
  | _ => none

/-- One entry of the value-map rebuild in copyBpfState: keep the entry only
when its value is truthy (non-null, non-undefined, non-empty), dropping the
effect. -/
def copyEntry (kv : Str × Option BpfValue) : Option (Str × Option BpfValue) :=
  match kv.2 with
  | some v =>
    match v.value with
    | some str =>
      if str.isEmpty then none
      else some (kv.1, some { value := some str, effect := Effect.NONE })
    | none => none
  | none => none

/-- copyBpfState: rebuild the value map keeping only truthy entries.
Rebuilding a JS Map entry-by-entry in iteration order is exactly a filter of
the association list, since Map keys are unique.  lastKnownWrites is copied
verbatim. -/
def copyBpfState (s : BpfState) : BpfState :=
  { values := s.values.filterMap copyEntry,
    lastKnownWrites := s.lastKnownWrites,
    frame := s.frame, idx := s.idx, pc := s.pc }

/-- pushStackFrame, with the module-level SAVED_BPF_STATES array threaded
explicitly as the first argument/result (the source mutates it in place). -/
def pushStackFrame (g : List BpfState) (state : BpfState) : List BpfState × BpfState :=
  let g1 := g ++ [copyBpfState state]
  let values1 := BPF_SCRATCH_REGS.foldl
    (fun acc r => jsSet acc r (some { value := valStr? (jsGet state.values r), effect := Effect.READ })) []
  let values2 := (("r0").data :: BPF_CALLEE_SAVED_REGS).foldl
    (fun acc r => jsSet acc r (some { value := some [], effect := Effect.WRITE })) values1
  let values3 := jsSet values2 ("r10").data (some (makeValue ("fp0").data Effect.NONE))
  let lkw := BPF_SCRATCH_REGS.foldl
    (fun acc r => jsSet acc r ((jsGet state.lastKnownWrites r).join)) []
  (g1, { values := values3, lastKnownWrites := lkw,
         frame := state.frame + 1, idx := state.idx, pc := state.pc })

/-- popStackFrame: restore the saved frame (or a fresh initial state when the
saved stack is empty), scratch the caller's argument registers and copy r0
from the exiting frame. -/
def popStackFrame (g : List BpfState) (exiting : BpfState) : List BpfState × BpfState :=
  match g.getLast? with
  | none => (g, initialBpfState)
  | some st =>
    let g1 := g.dropLast
    let values1 := BPF_SCRATCH_REGS.foldl
      (fun acc r => jsSet acc r (some { value := some [], effect := Effect.WRITE })) st.values
    let lkw1 := BPF_SCRATCH_REGS.foldl (fun acc r => jsDel acc r) st.lastKnownWrites
    let v0 : Str := (valStr? (jsGet exiting.values ("r0").data)).getD []
    let values2 := jsSet values1 ("r0").data (some { value := some v0, effect := Effect.NONE })
    let lkw2 := jsSet lkw1 ("r0").data ((jsGet exiting.lastKnownWrites ("r0").data).join)
    (g1, { values := values2, lastKnownWrites := lkw2,
           frame := st.frame, idx := st.idx, pc := st.pc })

/-- `ins.jmp?.kind` with undefined collapsing to NONE. -/
def insJmpKind (i : BpfInstruction) : BpfJmpKind :=
  match i.jmp with
  | some j => j.kind
  | none => BpfJmpKind.NONE

/-- `line.bpfIns?.jmp?.kind`, with undefined collapsing to the NONE kind the
switch's default branch treats it as. -/
def lineJmpKind (line : ParsedLine) : BpfJmpKind :=
  match line.bpfIns with
  | some i => insJmpKind i
  | none => BpfJmpKind.NONE

/-- One step of the writes loop of nextBpfState: upgrade the effect to
UPDATE when the slot was already read, scratch its value, record the write. -/
def writesStep (idx : Option Nat)
    (acc : List (Str × Effect) × List (Str × Option BpfValue) × List (Str × Option Nat))
    (id : Str) :
    List (Str × Effect) × List (Str × Option BpfValue) × List (Str × Option Nat) :=
  let e := if (jsGet acc.1 id).isSome then Effect.UPDATE else Effect.WRITE
  (jsSet acc.1 id e,
   jsSet acc.2.1 id (some (makeValue [] e)),
   jsSet acc.2.2 id idx)

/-- One step of the state-expression loop of nextBpfState: the reported value
overwrites the slot, keeping the instruction-derived effect if any. -/
def exprStep (effects : List (Str × Effect))
    (vals : List (Str × Option BpfValue)) (expr : BpfStateExpr) :
    List (Str × Option BpfValue) :=
  jsSet vals expr.id (some (makeValue expr.value ((jsGet effects expr.id).getD Effect.NONE)))

/-- nextBpfState (with SAVED_BPF_STATES threaded through). -/
def nextBpfState (g : List BpfState) (state : BpfState) (line : ParsedLine) :
    List BpfState × BpfState :=
  if line.type ≠ ParsedLineType.INSTRUCTION then (g, state)
  else
    match lineJmpKind line with
    | BpfJmpKind.BPF2BPF_CALL =>
      let p := pushStackFrame g state
      (p.1, { p.2 with idx := line.idx, pc := line.bpfIns.bind BpfInstruction.pc })
    | BpfJmpKind.EXIT =>
      let p := popStackFrame g state
      (p.1, { p.2 with idx := line.idx, pc := line.bpfIns.bind BpfInstruction.pc })
    | _ =>
      let ns := copyBpfState state
      let reads := (line.bpfIns.map BpfInstruction.reads).getD []
      let writes := (line.bpfIns.map BpfInstruction.writes).getD []
      let effects1 := reads.foldl (fun eff id => jsSet eff id Effect.READ) []
      let step := writes.foldl (writesStep line.idx) (effects1, ns.values, ns.lastKnownWrites)
      let values2 := line.bpfStateExprs.foldl (exprStep step.1) step.2.1
      (g, { values := values2, lastKnownWrites := step.2.2, frame := ns.frame,
            idx := line.idx, pc := line.bpfIns.bind BpfInstruction.pc })

/-- The slice of AppState the engine needs (UI fields omitted). -/
structure AppState where
  lines : List ParsedLine
  bpfStates : List BpfState
  selectedLineIdx : Nat
deriving DecidableEq

/-- mostRecentBpfState: the loader stores a (never-null) state for every
line, so the backward scan stops immediately at the clamped index; an empty
history yields a fresh initial state at index 0. -/
def mostRecentBpfState (s : AppState) (idx : Nat) : BpfState × Nat :=
  let j := min idx (s.bpfStates.length - 1)
  match s.bpfStates.get? j with
  | some st => (st, j)
  | none => (initialBpfState, 0)

/-- loadRawLine: parse, stamp the line index, fold the state, append both. -/
def loadRawLine (acc : AppState × List BpfState) (raw : Str) : AppState × List BpfState :=
  let st := acc.1
  let parsed := { parseLine raw with idx := some st.lines.length }
  let pr := nextBpfState acc.2 (mostRecentBpfState st st.lines.length).1 parsed
  ({ lines := st.lines ++ [parsed], bpfStates := st.bpfStates ++ [pr.2],
     selectedLineIdx := st.selectedLineIdx }, pr.1)

/-- Loading a whole log from a given SAVED_BPF_STATES content. -/
def loadLog (g : List BpfState) (raws : List Str) : AppState × List BpfState :=
  raws.foldl loadRawLine ({ lines := [], bpfStates := [], selectedLineIdx := 0 }, g)

/-- Set.add: insertion-ordered, duplicate-free. -/
def addDep (l : List Nat) (n : Nat) : List Nat := if l.contains n then l else l ++ [n]

/-- memSlotDependencies.  The source recursion is unbounded; it is modelled
with a fuel parameter (every theorem below either holds for all fuels or is
evaluated with fuel larger than the recursion depth of the run at hand).
The two inner `none` fallbacks marked unreachable correspond to accesses the
source performs only on states the loader never produces. -/
def memSlotDependencies : Nat → AppState → Nat → Str → List Nat
  | 0, _, _, _ => []
  | Nat.succ fuel, state, idx, memSlotId =>
    match (state.lines.get? idx).bind ParsedLine.bpfIns with
    | none => []
    | some _ =>
      match state.bpfStates.get? idx with
      | none => []
      | some bpfState =>
        match (jsGet bpfState.values memSlotId).join.map BpfValue.effect,
              (jsGet bpfState.lastKnownWrites memSlotId).join with
        | some effect, some depIdx =>
          if depIdx = 0 then []
          else
            match (state.lines.get? depIdx).bind ParsedLine.bpfIns with
            | none => []
            | some depIns =>
              if depIdx = idx ∧ effect = Effect.UPDATE then
                let prev := (mostRecentBpfState state (idx - 1)).1
                let deps :=
                  match (jsGet prev.lastKnownWrites memSlotId).join with
                  | some j => memSlotDependencies fuel state j memSlotId
                  | none => []
                addDep deps depIdx
              else if depIns.reads.length = 1 then
                addDep (memSlotDependencies fuel state depIdx (depIns.reads.headD [])) depIdx
              else addDep [] depIdx
        | _, _ => []

def insertNat (n : Nat) : List Nat → List Nat
  | [] => [n]
  | m :: t => if n ≤ m then n :: m :: t else m :: insertNat n t

/-- `arr.sort((a, b) => a - b)`. -/
def sortNat (l : List Nat) : List Nat := l.foldr insertNat []

/-- collectMemSlotDependencies: retarget a pure-write slot to the single read
slot, resolve, sort ascending.  The truthiness of `Array.find` on a string
makes an empty-string slot id count as not found. -/
def collectMemSlotDependencies (fuel : Nat) (state : AppState) (memSlotId0 : Str) : List Nat :=
  match (state.lines.get? state.selectedLineIdx).bind ParsedLine.bpfIns with
  | none => []
  | some ins =>
    let foundRead := ins.reads.contains memSlotId0 && !memSlotId0.isEmpty
    let foundWrite := ins.writes.contains memSlotId0 && !memSlotId0.isEmpty
    let memSlotId :=
      if !foundRead && foundWrite && ins.reads.length == 1 then ins.reads.headD []
      else memSlotId0
    sortNat (memSlotDependencies fuel state state.selectedLineIdx memSlotId)

/-! Derived notions used by the statements below. -/

/-- The value (if any) a slot contributes to the next snapshot through
copyBpfState: present exactly when the entry is non-null with a non-empty
value string. -/
def carryVal (vals : List (Str × Option BpfValue)) (k : Str) : Option Str :=
  match jsGet vals k with
  | some (some v) =>
    match v.value with
    | some str => if str.isEmpty then none else some str
    | none => none
  | _ => none

/-- Folding nextBpfState over a list of parsed lines, returning the final
snapshot (SAVED_BPF_STATES threaded through as in the source). -/
def runOrd (g : List BpfState) (s : BpfState) (ls : List ParsedLine) : BpfState :=
  (ls.foldl (fun acc l => nextBpfState acc.1 acc.2 l) (g, s)).2

/-- An instruction line that is neither a subprogram call nor an exit and
neither writes nor reports the slot `k`. -/
abbrev ordAvoids (k : Str) (l : ParsedLine) : Prop :=
  l.type = ParsedLineType.INSTRUCTION ∧
  lineJmpKind l ≠ BpfJmpKind.BPF2BPF_CALL ∧
  lineJmpKind l ≠ BpfJmpKind.EXIT ∧
  k ∉ (l.bpfIns.map BpfInstruction.writes).getD [] ∧
  k ∉ l.bpfStateExprs.map BpfStateExpr.id

/-! Concrete fixtures referenced by the statements below. -/

def dummyOp : BpfOperand := { type := OperandType.UNKNOWN, id := [], size := 0 }

def dummyAlu : BpfAluInstruction := { operator := [], dst := dummyOp, src := dummyOp }

def dummyJmp : BpfJmpInstruction := { target := [], kind := BpfJmpKind.NONE }

def dummyIns : BpfInstruction :=
  { opcode := { iclass := 0, code := 0, source := OpcodeSource.K },
    reads := [], writes := [] }

/-- The spec's call/exit scenario: a subprogram call eventually followed by
an exit. -/
def c2Log : List Str := [("0: (85) call pc+3").data, ("3: (95) exit").data]

/-- The spec's first dependency example, with each line completed to the
verifier's actual level-1 format (opcode byte and reported state comment);
the instruction lines sit at indices 42-44 as in the spec's numbering. -/
def c3Log1 : List Str :=
  List.replicate 42 ([] : Str) ++
  [("42: (b7) r1 = 13 ; R1_w=13").data,
   ("43: (b7) r7 = 0 ; R7_w=0").data,
   ("44: (bf) r2 = r1 ; R2_w=13").data]

def c3App1 : AppState := { (loadLog [] c3Log1).1 with selectedLineIdx := 44 }

/-- The spec's second dependency example, completed the same way (lines at
indices 42-45). -/
def c3Log2 : List Str :=
  List.replicate 42 ([] : Str) ++
  [("42: (bf) r1 = r2 ; R1_w=scalar(id=1)").data,
   ("43: (61) r3 = *(u32 *)(r10 -16) ; R3_w=scalar()").data,
   ("44: (0f) r1 += r3 ; R1_w=scalar()").data,
   ("45: (63) *(u32 *)(r10 -64) = r1").data]

def c3App2 : AppState := { (loadLog [] c3Log2).1 with selectedLineIdx := 45 }

def c3bs1 : BpfState := c3App1.bpfStates.getD 44 initialBpfState

def c3depIns1 : BpfInstruction :=
  ((c3App1.lines.getD 42 { type := ParsedLineType.UNRECOGNIZED, raw := [] }).bpfIns).getD dummyIns

def c3selIns1 : BpfInstruction :=
  ((c3App1.lines.getD 44 { type := ParsedLineType.UNRECOGNIZED, raw := [] }).bpfIns).getD dummyIns

/-- Fixture for the ALU reads/writes characterization: a compound assignment
parsed in isolation. -/
def c6Oc : BpfOpcode := parseOpcodeHex '0' 'f'

def c6Res : Option BpfInstruction × Str := parseAluInstruction (("r3 += 1").data) c6Oc

def c6Ins : BpfInstruction := c6Res.1.getD dummyIns

def c6Rest : Str := c6Res.2

def c6Alu : BpfAluInstruction := c6Ins.alu.getD dummyAlu

/-- Fixture for the call classification: a helper call parsed in isolation. -/
def c7Oc : BpfOpcode := parseOpcodeHex '8' '5'

def c7Res : Option BpfInstruction × Str := parseCall (("call bpf_trace_printk#6").data) c7Oc

def c7Ins : BpfInstruction := c7Res.1.getD dummyIns

def c7Jmp : BpfJmpInstruction := c7Ins.jmp.getD dummyJmp

/-- Fixture for the carry rule: an ordinary instruction line that neither
writes nor reports r2. -/
def c10Line : ParsedLine :=
  { parseLine (("0: (b7) r1 = 5 ; R1_w=5").data) with idx := some 0 }

/-! Lemmas about the JS-map model. -/

theorem jsGet_jsSet_self {α : Type} (m : List (Str × α)) (k : Str) (v : α) :
    jsGet (jsSet m k v) k = some v := by
  induction m with
  | nil => simp [jsSet, jsGet]
  | cons hd t ih =>
    obtain ⟨k0, v0⟩ := hd
    by_cases hk : k0 = k
    · simp [jsSet, jsGet, hk]
    · simp [jsSet, jsGet, hk, ih]

theorem jsGet_jsSet_ne {α : Type} (m : List (Str × α)) (k k1 : Str) (v : α)
    (h : k1 ≠ k) : jsGet (jsSet m k1 v) k = jsGet m k := by
  induction m with
  | nil => simp [jsSet, jsGet, h]
  | cons hd t ih =>
    obtain ⟨k0, v0⟩ := hd
    by_cases hk : k0 = k1
    · subst hk
      simp only [jsSet, if_pos rfl]
      have hne : ¬(k0 = k) := h
      simp [jsGet, hne]
    · simp only [jsSet, if_neg hk]
      by_cases hk2 : k0 = k
      · simp [jsGet, hk2]
      · simp [jsGet, hk2, ih]

theorem mem_keys_jsSet {α : Type} (m : List (Str × α)) (k a : Str) (v : α) :
    a ∈ (jsSet m k v).map Prod.fst ↔ a ∈ m.map Prod.fst ∨ a = k := by
  induction m with
  | nil =>
    dsimp only [jsSet]
    simp
  | cons hd t ih =>
    obtain ⟨k0, v0⟩ := hd
    dsimp only [jsSet]
    by_cases hk : k0 = k
    · subst hk
      rw [if_pos rfl]
      simp only [List.map_cons, List.mem_cons]
      exact ⟨Or.inl, fun h => h.elim id Or.inl⟩
    · rw [if_neg hk]
      simp only [List.map_cons, List.mem_cons, ih]
      rw [or_assoc]

theorem nodup_keys_jsSet {α : Type} (m : List (Str × α)) (k : Str) (v : α)
    (h : (m.map Prod.fst).Nodup) : ((jsSet m k v).map Prod.fst).Nodup := by
  induction m with
  | nil =>
    dsimp only [jsSet]
    simp
  | cons hd t ih =>
    obtain ⟨k0, v0⟩ := hd
    simp only [List.map_cons, List.nodup_cons] at h
    obtain ⟨h0, ht⟩ := h
    dsimp only [jsSet]
    by_cases hk : k0 = k
    · subst hk
      rw [if_pos rfl]
      simp only [List.map_cons, List.nodup_cons]
      exact ⟨h0, ht⟩
    · rw [if_neg hk]
      simp only [List.map_cons, List.nodup_cons]
      refine ⟨fun hmem => ?_, ih ht⟩
      rcases (mem_keys_jsSet t k k0 v).1 hmem with hin | heq
      · exact h0 hin
      · exact hk heq

theorem copyEntry_key (kv : Str × Option BpfValue) (e : Str × Option BpfValue)
    (h : copyEntry kv = some e) : e.1 = kv.1 := by
  unfold copyEntry at h
  rcases kv with ⟨k0, v0⟩
  cases v0 with
  | none => simp at h
  | some bv =>
    cases hbv : bv.value with
    | none => simp [hbv] at h
    | some str =>
      by_cases hse : str.isEmpty
      · simp [hbv, hse] at h
      · simp [hbv, hse] at h
        cases h.symm
        rfl

theorem jsGet_filterMap_copyEntry_none (l : List (Str × Option BpfValue)) (k : Str)
    (h : k ∉ l.map Prod.fst) : jsGet (l.filterMap copyEntry) k = none := by
  induction l with
  | nil => rfl
  | cons kv t ih =>
    simp only [List.map_cons, List.mem_cons, not_or] at h
    obtain ⟨h0, ht⟩ := h
    rw [List.filterMap_cons]
    cases hce : copyEntry kv with
    | none => exact ih ht
    | some e =>
      obtain ⟨ek, ev⟩ := e
      have hek : ek = kv.1 := copyEntry_key kv (ek, ev) hce
      have : ek ≠ k := by
        rw [hek]
        exact fun hc => h0 hc.symm
      simp [jsGet, this, ih ht]

theorem jsGet_filterMap_copyEntry (l : List (Str × Option BpfValue)) (k : Str)
    (hnd : (l.map Prod.fst).Nodup) :
    jsGet (l.filterMap copyEntry) k
      = (carryVal l k).map (fun str => some { value := some str, effect := Effect.NONE }) := by
  induction l with
  | nil => rfl
  | cons kv t ih =>
    obtain ⟨k0, v0⟩ := kv
    simp only [List.map_cons, List.nodup_cons] at hnd
    obtain ⟨h0, ht⟩ := hnd
    by_cases hkk : k0 = k
    · subst hkk
      have htail := jsGet_filterMap_copyEntry_none t k0 h0
      cases v0 with
      | none => simp [List.filterMap_cons, copyEntry, carryVal, jsGet, htail]
      | some bv =>
        cases hbv : bv.value with
        | none => simp [List.filterMap_cons, copyEntry, hbv, carryVal, jsGet, htail]
        | some str =>
          by_cases hse : str.isEmpty
          · simp [List.filterMap_cons, copyEntry, hbv, hse, carryVal, jsGet, htail]
          · simp [List.filterMap_cons, copyEntry, hbv, hse, carryVal, jsGet]
    · rw [List.filterMap_cons]
      have hcar : carryVal ((k0, v0) :: t) k = carryVal t k := by
        simp [carryVal, jsGet, hkk]
      cases hce : copyEntry (k0, v0) with
      | none => rw [hcar]; exact ih ht
      | some e =>
        obtain ⟨ek, ev⟩ := e
        have hek : ek = k0 := copyEntry_key (k0, v0) (ek, ev) hce
        rw [hcar, ← ih ht]
        simp [jsGet, hek, hkk]

theorem keys_filterMap_copyEntry_sublist (l : List (Str × Option BpfValue)) :
    ((l.filterMap copyEntry).map Prod.fst).Sublist (l.map Prod.fst) := by
  induction l with
  | nil => simp
  | cons kv t ih =>
    rw [List.filterMap_cons]
    cases hce : copyEntry kv with
    | none =>
      simp only [List.map_cons]
      exact ih.cons kv.1
    | some e =>
      have hek := copyEntry_key kv e hce
      simp only [List.map_cons, hek]
      exact ih.cons₂ kv.1

theorem nodup_keys_copy (s : BpfState) (hnd : (s.values.map Prod.fst).Nodup) :
    ((copyBpfState s).values.map Prod.fst).Nodup :=
  (keys_filterMap_copyEntry_sublist s.values).nodup hnd

theorem jsGet_foldl_writesStep (idx : Option Nat) (ids : List Str) (k : Str)
    (acc : List (Str × Effect) × List (Str × Option BpfValue) × List (Str × Option Nat))
    (h : k ∉ ids) :
    jsGet (ids.foldl (writesStep idx) acc).2.1 k = jsGet acc.2.1 k := by
  induction ids generalizing acc with
  | nil => rfl
  | cons i t ih =>
    simp only [List.mem_cons, not_or] at h
    obtain ⟨h0, ht⟩ := h
    rw [List.foldl_cons, ih _ ht]
    exact jsGet_jsSet_ne _ _ _ _ (fun hc => h0 hc.symm)

theorem nodup_foldl_writesStep (idx : Option Nat) (ids : List Str)
    (acc : List (Str × Effect) × List (Str × Option BpfValue) × List (Str × Option Nat))
    (h : (acc.2.1.map Prod.fst).Nodup) :
    (((ids.foldl (writesStep idx) acc).2.1).map Prod.fst).Nodup := by
  induction ids generalizing acc with
  | nil => exact h
  | cons i t ih =>
    rw [List.foldl_cons]
    exact ih _ (nodup_keys_jsSet _ _ _ h)

theorem jsGet_foldl_exprStep (effects : List (Str × Effect)) (exprs : List BpfStateExpr)
    (vals : List (Str × Option BpfValue)) (k : Str)
    (h : k ∉ exprs.map BpfStateExpr.id) :
    jsGet (exprs.foldl (exprStep effects) vals) k = jsGet vals k := by
  induction exprs generalizing vals with
  | nil => rfl
  | cons e t ih =>
    simp only [List.map_cons, List.mem_cons, not_or] at h
    obtain ⟨h0, ht⟩ := h
    rw [List.foldl_cons, ih _ ht]
    exact jsGet_jsSet_ne _ _ _ _ (fun hc => h0 hc.symm)

theorem nodup_foldl_exprStep (effects : List (Str × Effect)) (exprs : List BpfStateExpr)
    (vals : List (Str × Option BpfValue))
    (h : (vals.map Prod.fst).Nodup) :
    ((exprs.foldl (exprStep effects) vals).map Prod.fst).Nodup := by
  induction exprs generalizing vals with
  | nil => exact h
  | cons e t ih =>
    rw [List.foldl_cons]
    exact ih _ (nodup_keys_jsSet _ _ _ h)

/-! Lemmas about a single ordinary state transition. -/

theorem next_ordinary_values_get (g : List BpfState) (s : BpfState) (line : ParsedLine)
    (k : Str)
    (hnd : (s.values.map Prod.fst).Nodup)
    (ht : line.type = ParsedLineType.INSTRUCTION)
    (h1 : lineJmpKind line ≠ BpfJmpKind.BPF2BPF_CALL)
    (h2 : lineJmpKind line ≠ BpfJmpKind.EXIT)
    (hw : k ∉ (line.bpfIns.map BpfInstruction.writes).getD [])
    (he : k ∉ line.bpfStateExprs.map BpfStateExpr.id) :
    jsGet (nextBpfState g s line).2.values k
      = (carryVal s.values k).map (fun str => some { value := some str, effect := Effect.NONE }) := by
  unfold nextBpfState
  rw [if_neg (by simp [ht])]
  cases hk : lineJmpKind line with
  | BPF2BPF_CALL => exact absurd hk h1
  | EXIT => exact absurd hk h2
  | NONE =>
    dsimp only
    rw [jsGet_foldl_exprStep _ _ _ _ he, jsGet_foldl_writesStep _ _ _ _ hw]
    exact jsGet_filterMap_copyEntry s.values k hnd
  | UNCONDITIONAL_GOTO =>
    dsimp only
    rw [jsGet_foldl_exprStep _ _ _ _ he, jsGet_foldl_writesStep _ _ _ _ hw]
    exact jsGet_filterMap_copyEntry s.values k hnd
  | CONDITIONAL_GOTO =>
    dsimp only
    rw [jsGet_foldl_exprStep _ _ _ _ he, jsGet_foldl_writesStep _ _ _ _ hw]
    exact jsGet_filterMap_copyEntry s.values k hnd
  | HELPER_CALL =>
    dsimp only
    rw [jsGet_foldl_exprStep _ _ _ _ he, jsGet_foldl_writesStep _ _ _ _ hw]
    exact jsGet_filterMap_copyEntry s.values k hnd

theorem nodup_next_ordinary_values (g : List BpfState) (s : BpfState) (line : ParsedLine)
    (hnd : (s.values.map Prod.fst).Nodup)
    (h1 : lineJmpKind line ≠ BpfJmpKind.BPF2BPF_CALL)
    (h2 : lineJmpKind line ≠ BpfJmpKind.EXIT) :
    (((nextBpfState g s line).2.values).map Prod.fst).Nodup := by
  unfold nextBpfState
  by_cases ht : line.type ≠ ParsedLineType.INSTRUCTION
  · rw [if_pos ht]
    exact hnd
  · rw [if_neg ht]
    have hcopy := nodup_keys_copy s hnd
    cases hk : lineJmpKind line with
    | BPF2BPF_CALL => exact absurd hk h1
    | EXIT => exact absurd hk h2
    | NONE =>
      exact nodup_foldl_exprStep _ _ _ (nodup_foldl_writesStep _ _ _ hcopy)
    | UNCONDITIONAL_GOTO =>
      exact nodup_foldl_exprStep _ _ _ (nodup_foldl_writesStep _ _ _ hcopy)
    | CONDITIONAL_GOTO =>
      exact nodup_foldl_exprStep _ _ _ (nodup_foldl_writesStep _ _ _ hcopy)
    | HELPER_CALL =>
      exact nodup_foldl_exprStep _ _ _ (nodup_foldl_writesStep _ _ _ hcopy)

theorem runOrd_cons (g : List BpfState) (s : BpfState) (l : ParsedLine)
    (t : List ParsedLine) :
    runOrd g s (l :: t) = runOrd (nextBpfState g s l).1 (nextBpfState g s l).2 t := rfl

theorem runOrd_absent (k : Str) :
    ∀ (ls : List ParsedLine) (g : List BpfState) (s : BpfState),
      (s.values.map Prod.fst).Nodup →
      carryVal s.values k = none →
      (∀ l ∈ ls, ordAvoids k l) →
      carryVal (runOrd g s ls).values k = none ∧
      (ls ≠ [] → jsGet (runOrd g s ls).values k = none) := by
  intro ls
  induction ls with
  | nil =>
    intro g s _ hcv _
    exact ⟨hcv, fun hne => absurd rfl hne⟩
  | cons l t ih =>
    intro g s hnd hcv hall
    obtain ⟨ht, h1, h2, hw, he⟩ := hall l (List.mem_cons_self l t)
    have hstep : jsGet (nextBpfState g s l).2.values k = none := by
      rw [next_ordinary_values_get g s l k hnd ht h1 h2 hw he, hcv]
      rfl
    have hnd2 := nodup_next_ordinary_values g s l hnd h1 h2
    have hcv2 : carryVal (nextBpfState g s l).2.values k = none := by
      simp [carryVal, hstep]
    obtain ⟨ha, hb⟩ := ih (nextBpfState g s l).1 (nextBpfState g s l).2 hnd2 hcv2
      (fun l2 hl2 => hall l2 (List.mem_cons_of_mem l hl2))
    rw [runOrd_cons]
    refine ⟨ha, fun _ => ?_⟩
    cases t with
    | nil => exact hstep
    | cons l2 t2 => exact hb (by simp)

/-! The parser never produces an EXIT instruction, so the only reader of the
module-level SAVED_BPF_STATES stack is unreachable through parseLine. -/

theorem parseAluInstruction_jmp (s : Str) (oc : BpfOpcode) (ins : BpfInstruction)
    (r : Str) (h : parseAluInstruction s oc = (some ins, r)) : ins.jmp = none := by
  unfold parseAluInstruction at h
  rcases hd : parseAluDst s with ⟨od, dRest⟩
  rw [hd] at h
  cases od with
  | none => simp at h
  | some dst0 =>
    dsimp only at h
    rcases hop : findOperator BPF_ALU_OPERATORS (consumeSpaces dRest) with _ | ⟨operator, rest2⟩ <;>
      rw [hop] at h
    · simp at h
    · dsimp only at h
      rcases hs : parseAluSrc rest2 with ⟨os, sRest⟩
      rw [hs] at h
      cases os with
      | none => simp at h
      | some src0 =>
        dsimp only at h
        simp only [Prod.mk.injEq, Option.some.injEq] at h
        obtain ⟨h1, _⟩ := h
        rw [← h1]

theorem parseCall_kind (s : Str) (oc : BpfOpcode) (ins : BpfInstruction) (r : Str)
    (h : parseCall s oc = (some ins, r)) :
    insJmpKind ins = BpfJmpKind.HELPER_CALL ∨ insJmpKind ins = BpfJmpKind.BPF2BPF_CALL := by
  unfold parseCall at h
  rcases hct : reCallTarget s with ⟨m, rest⟩
  rw [hct] at h
  cases m with
  | none => simp at h
  | some target =>
    dsimp only at h
    by_cases hp : isPcTarget target = true
    · simp only [hp, if_true, Prod.mk.injEq, Option.some.injEq] at h
      obtain ⟨h1, _⟩ := h
      right
      rw [← h1]
      rfl
    · rw [if_neg hp] at h
      simp only [Prod.mk.injEq, Option.some.injEq] at h
      obtain ⟨h1, _⟩ := h
      left
      rw [← h1]
      rfl

theorem parseConditionalJmp_kind (s : Str) (oc : BpfOpcode) (ins : BpfInstruction)
    (r : Str) (h : parseConditionalJmp s oc = (some ins, r)) :
    insJmpKind ins = BpfJmpKind.CONDITIONAL_GOTO := by
  unfold parseConditionalJmp at h
  rcases hif : dropPre? ("if ").data s with _ | rest0 <;> rw [hif] at h
  · simp at h
  · dsimp only at h
    rcases hl : parseCondOp rest0 with ⟨ol, lRest⟩
    rw [hl] at h
    cases ol with
    | none => simp at h
    | some l0 =>
      dsimp only at h
      rcases hop : findOperator BPF_COND_OPERATORS (consumeSpaces lRest) with _ | ⟨operator, rest2⟩ <;>
        rw [hop] at h
      · simp at h
      · dsimp only at h
        rcases hr : parseCondOp rest2 with ⟨orr, rRest⟩
        rw [hr] at h
        cases orr with
        | none => simp at h
        | some r0 =>
          dsimp only at h
          rcases hj : reJmpTarget (consumeSpaces (consumeSpaces rRest)) with ⟨oj, tRest⟩
          rw [hj] at h
          cases oj with
          | none => simp at h
          | some target =>
            dsimp only at h
            simp only [Prod.mk.injEq, Option.some.injEq] at h
            obtain ⟨h1, _⟩ := h
            rw [← h1]
            rfl

theorem parseUnconditionalJmp_kind (s : Str) (oc : BpfOpcode) (ins : BpfInstruction)
    (r : Str) (h : parseUnconditionalJmp s oc = (some ins, r)) :
    insJmpKind ins = BpfJmpKind.UNCONDITIONAL_GOTO := by
  unfold parseUnconditionalJmp at h
  rcases hg : dropPre? ("goto ").data s with _ | rest0 <;> rw [hg] at h
  · simp at h
  · dsimp only at h
    rcases hj : reJmpTarget s with ⟨oj, tRest⟩
    rw [hj] at h
    cases oj with
    | none => simp at h
    | some target =>
      dsimp only at h
      simp only [Prod.mk.injEq, Option.some.injEq] at h
      obtain ⟨h1, _⟩ := h
      rw [← h1]
      rfl

theorem parseJmpInstruction_kind (s : Str) (oc : BpfOpcode) (ins : BpfInstruction)
    (r : Str) (h : parseJmpInstruction s oc = (some ins, r)) :
    insJmpKind ins ≠ BpfJmpKind.EXIT := by
  unfold parseJmpInstruction at h
  rcases hc : oc.code with _ | _ | _ | _ | _ | _ | _ | _ | _ | n <;> rw [hc] at h
  · rw [parseUnconditionalJmp_kind s oc ins r h]
    intro hx
    cases hx
  · rw [parseConditionalJmp_kind s oc ins r h]
    intro hx
    cases hx
  · rw [parseConditionalJmp_kind s oc ins r h]
    intro hx
    cases hx
  · rw [parseConditionalJmp_kind s oc ins r h]
    intro hx
    cases hx
  · simp at h
  · rw [parseConditionalJmp_kind s oc ins r h]
    intro hx
    cases hx
  · rw [parseConditionalJmp_kind s oc ins r h]
    intro hx
    cases hx
  · rw [parseConditionalJmp_kind s oc ins r h]
    intro hx
    cases hx
  · rcases parseCall_kind s oc ins r h with hk | hk <;> rw [hk] <;> intro hx <;> cases hx
  · simp at h

theorem parseInstruction_kind (s : Str) (oc : BpfOpcode) (ins : BpfInstruction)
    (r : Str) (h : parseInstruction s oc = (some ins, r)) :
    insJmpKind ins ≠ BpfJmpKind.EXIT := by
  unfold parseInstruction at h
  rcases hc : oc.iclass with _ | _ | _ | _ | _ | _ | _ | _ | n <;> rw [hc] at h
  case zero =>
    rw [insJmpKind, parseAluInstruction_jmp s oc ins r h]
    intro hx
    cases hx
  all_goals first
    | (rw [insJmpKind, parseAluInstruction_jmp s oc ins r h]; intro hx; cases hx)
    | (exact parseJmpInstruction_kind s oc ins r h)
    | simp at h

theorem parseOpcodeIns_kind (s : Str) (pc : Nat) (ins : BpfInstruction) (r : Str)
    (h : parseOpcodeIns s pc = (some ins, r)) :
    insJmpKind ins ≠ BpfJmpKind.EXIT := by
  unfold parseOpcodeIns at h
  rcases ho : reOpcode s with ⟨om, rest⟩
  rw [ho] at h
  cases om with
  | none => simp at h
  | some hx =>
    obtain ⟨h1, h2⟩ := hx
    dsimp only at h
    rcases hi : parseInstruction (consumeSpaces rest) (parseOpcodeHex h1 h2) with ⟨oi, ir⟩
    rw [hi] at h
    cases oi with
    | none => simp at h
    | some ins0 =>
      dsimp only at h
      simp only [Prod.mk.injEq, Option.some.injEq] at h
      obtain ⟨he, _⟩ := h
      have hk := parseInstruction_kind _ _ _ _ hi
      rw [← he]
      exact hk

theorem parseLine_kind (raw : Str) : lineJmpKind (parseLine raw) ≠ BpfJmpKind.EXIT := by
  unfold parseLine
  rcases hp : rePC (consumeSpaces raw) with ⟨op, rest⟩
  cases op with
  | none =>
    intro hx
    cases hx
  | some pcs =>
    dsimp only
    rcases hoi : parseOpcodeIns (consumeSpaces rest) (digitsToNat pcs) with ⟨oi, ir⟩
    cases oi with
    | none => simp [lineJmpKind]
    | some ins =>
      dsimp only [lineJmpKind]
      exact parseOpcodeIns_kind _ _ _ _ hoi

theorem nextBpfState_snd_indep (g1 g2 : List BpfState) (s : BpfState) (line : ParsedLine)
    (hk : lineJmpKind line ≠ BpfJmpKind.EXIT) :
    (nextBpfState g1 s line).2 = (nextBpfState g2 s line).2 := by
  unfold nextBpfState
  by_cases ht : line.type ≠ ParsedLineType.INSTRUCTION
  · rw [if_pos ht, if_pos ht]
  · rw [if_neg ht, if_neg ht]
    cases hkk : lineJmpKind line with
    | EXIT => exact absurd hkk hk
    | BPF2BPF_CALL => rfl
    | NONE => rfl
    | UNCONDITIONAL_GOTO => rfl
    | CONDITIONAL_GOTO => rfl
    | HELPER_CALL => rfl

theorem loadLoop_fst_indep :
    ∀ (raws : List Str) (app : AppState) (g1 g2 : List BpfState),
      (raws.foldl loadRawLine (app, g1)).1 = (raws.foldl loadRawLine (app, g2)).1 := by
  intro raws
  induction raws with
  | nil => intro app g1 g2; rfl
  | cons raw rest ih =>
    intro app g1 g2
    have hkind : lineJmpKind { parseLine raw with idx := some app.lines.length } ≠ BpfJmpKind.EXIT :=
      parseLine_kind raw
    have hstate :
        (nextBpfState g1 (mostRecentBpfState app app.lines.length).1
          { parseLine raw with idx := some app.lines.length }).2
        = (nextBpfState g2 (mostRecentBpfState app app.lines.length).1
          { parseLine raw with idx := some app.lines.length }).2 :=
      nextBpfState_snd_indep g1 g2 _ _ hkind
    have happ : (loadRawLine (app, g1) raw).1 = (loadRawLine (app, g2) raw).1 := by
      simp only [loadRawLine, hstate]
    have h2 : loadRawLine (app, g2) raw
        = ((loadRawLine (app, g1) raw).1, (loadRawLine (app, g2) raw).2) :=
      Prod.ext happ.symm rfl
    rw [List.foldl_cons, List.foldl_cons, h2]
    exact ih (loadRawLine (app, g1) raw).1 (loadRawLine (app, g1) raw).2
      (loadRawLine (app, g2) raw).2

/-- The source's explicit stack of open parentheses carries the same
information as its length: the two scans agree on every input. -/
theorem scanLen_eq_scanDepthSpec :
    ∀ (s : Str) (stack : List Char), scanLen s stack = scanDepthSpec s stack.length := by
  intro s
  induction s with
  | nil => intro stack; rfl
  | cons c t ih =>
    intro stack
    by_cases hp : c = '('
    · subst hp
      simp [scanLen, scanDepthSpec, ih]
    · by_cases hq : c = ')'
      · subst hq
        cases stack with
        | nil => simp [scanLen, scanDepthSpec, ih]
        | cons a st => simp [scanLen, scanDepthSpec, ih]
      · by_cases hr : c = ' '
        · subst hr
          cases stack with
          | nil => simp [scanLen, scanDepthSpec, hq]
          | cons a st => simp [scanLen, scanDepthSpec, hq, ih]
        · simp [scanLen, scanDepthSpec, hp, hq, hr, ih]

def c7Line : ParsedLine := parseLine (("7: (85) call bpf_probe_read_user#112").data)

/-! Claim theorems. -/

/-- C1: parseLine is total (a Lean function defined on every raw string, so
no input can make it throw), it always carries the raw text unchanged, it
returns an INSTRUCTION exactly when the leading pc/opcode grammar and the
instruction body parse, and on any failure it returns UNRECOGNIZED with no
instruction payload and no state expressions. -/
theorem parseLine_total_malformed_unrecognized (raw : Str) :
    (parseLine raw).raw = raw ∧
    ((parseLine raw).type = ParsedLineType.INSTRUCTION ↔ (parseLine raw).bpfIns.isSome) ∧
    ((parseLine raw).type = ParsedLineType.UNRECOGNIZED →
      (parseLine raw).bpfIns = none ∧ (parseLine raw).bpfStateExprs = []) := by
  unfold parseLine
  rcases hp : rePC (consumeSpaces raw) with ⟨op, rest⟩
  cases op with
  | none => exact ⟨rfl, by simp, fun _ => ⟨rfl, rfl⟩⟩
  | some pcs =>
    dsimp only
    rcases hoi : parseOpcodeIns (consumeSpaces rest) (digitsToNat pcs) with ⟨oi, ir⟩
    cases oi with
    | none => exact ⟨rfl, by simp, fun _ => ⟨rfl, rfl⟩⟩
    | some ins =>
      refine ⟨rfl, by simp, fun hx => ?_⟩
      cases hx

/-- C1 witness: a line that matches no grammar is UNRECOGNIZED and keeps its
raw text. -/
theorem parseLine_total_malformed_unrecognized_witness :
    (parseLine (("garbage").data)).raw = ("garbage").data ∧
    ((parseLine (("garbage").data)).type = ParsedLineType.INSTRUCTION ↔
      (parseLine (("garbage").data)).bpfIns.isSome) ∧
    ((parseLine (("garbage").data)).type = ParsedLineType.UNRECOGNIZED →
      (parseLine (("garbage").data)).bpfIns = none ∧
      (parseLine (("garbage").data)).bpfStateExprs = []) :=
  parseLine_total_malformed_unrecognized (("garbage").data)

/-- C2: code-bug exhibit — on the log `0: (85) call pc+3`, `3: (95) exit`,
the frame depth after the call line is 1 as the claim states, but the exit
line is UNRECOGNIZED (parseJmpInstruction returns no instruction for the
EXIT jump code), so popStackFrame never runs: the depth after the exit line
is still 1, r0 is not restored, and the state pushed by the call is never
consumed (the saved stack still holds one entry). -/
theorem exit_line_unrecognized_frame_stays :
    ((loadLog [] c2Log).1.bpfStates.map BpfState.frame) = [1, 1] ∧
    ((loadLog [] c2Log).1.lines.map ParsedLine.type)
      = [ParsedLineType.INSTRUCTION, ParsedLineType.UNRECOGNIZED] ∧
    (loadLog [] c2Log).2.length = 1 := by decide

/-- C3: the backward dependency walk stops at the discovered dependency and
returns exactly it whenever that instruction's reads-set does not have
exactly one member (and the self-UPDATE case does not apply); and on the
spec's two example logs (completed to real verifier lines) resolving r1 at
line 44 yields [42] and resolving r1 at line 45 yields [44]. -/
theorem memSlotDependencies_single_read_rule
    (fuel idx depIdx : Nat) (app : AppState) (slot : Str) (bs : BpfState)
    (eff : Effect) (ins0 depIns : BpfInstruction)
    (hins : (app.lines.get? idx).bind ParsedLine.bpfIns = some ins0)
    (hbs : app.bpfStates.get? idx = some bs)
    (heff : (jsGet bs.values slot).join.map BpfValue.effect = some eff)
    (hdep : (jsGet bs.lastKnownWrites slot).join = some depIdx)
    (hdep0 : depIdx ≠ 0)
    (hdIns : (app.lines.get? depIdx).bind ParsedLine.bpfIns = some depIns)
    (hnotupd : ¬(depIdx = idx ∧ eff = Effect.UPDATE))
    (hreads : depIns.reads.length ≠ 1) :
    memSlotDependencies (fuel + 1) app idx slot = [depIdx] ∧
    collectMemSlotDependencies 50 c3App1 (("r1").data) = [42] ∧
    collectMemSlotDependencies 50 c3App2 (("r1").data) = [44] := by
  refine ⟨?_, by decide, by decide⟩
  unfold memSlotDependencies
  rw [hins]
  dsimp only
  rw [hbs]
  dsimp only
  rw [heff, hdep]
  dsimp only
  rw [if_neg hdep0, hdIns]
  dsimp only
  rw [if_neg hnotupd, if_neg hreads]
  rfl

/-- C3 witness: the first example evaluated through the rule. -/
theorem memSlotDependencies_single_read_rule_witness :
    memSlotDependencies 50 c3App1 44 (("r1").data) = [42] :=
  (memSlotDependencies_single_read_rule 49 44 42 c3App1 (("r1").data) c3bs1
    Effect.NONE c3selIns1 c3depIns1 (by decide) (by decide) (by decide) (by decide)
    (by decide) (by decide) (by decide) (by decide)).1

/-- C4: code-bug exhibit — the conditional operator is chosen by FIRST
prefix match over BPF_COND_OPERATORS, which lists `<` before `<=` and `s<`
before `s<=`, so `if r1 <= r2 goto pc+4` consumes `<`, fails on the leftover
`= r2 ...` and the whole line is UNRECOGNIZED, while the same line with `<`
parses as a conditional goto.  (With the real JLE opcode byte (bd) the line
is also unrecognized: jump codes 0xa-0xd are missing from the dispatch.) -/
theorem cond_le_operator_line_unrecognized :
    (parseLine (("0: (1d) if r1 <= r2 goto pc+4").data)).type = ParsedLineType.UNRECOGNIZED ∧
    (parseLine (("0: (bd) if r1 <= r2 goto pc+4").data)).type = ParsedLineType.UNRECOGNIZED ∧
    (parseLine (("0: (1d) if r1 < r2 goto pc+4").data)).type = ParsedLineType.INSTRUCTION ∧
    (((parseLine (("0: (1d) if r1 < r2 goto pc+4").data)).bpfIns.bind BpfInstruction.jmp).map
      BpfJmpInstruction.kind) = some BpfJmpKind.CONDITIONAL_GOTO := by decide

/-- C5: counterexample — in the comment `; foo bar=1 baz=2` the token `foo`
(which has no `=`) is NOT skipped: the parser produces the key `foo bar`,
so the result differs from parsing the comment with the malformed token
removed (which the claim's skip-and-continue behavior would give). -/
theorem stateExpr_malformed_token_merged :
    (parseBpfStateExprs (("; foo bar=1 baz=2").data)).1
      ≠ (parseBpfStateExprs (("; bar=1 baz=2").data)).1 ∧
    ((parseBpfStateExprs (("; foo bar=1 baz=2").data)).1.map BpfStateExpr.id)
      = [("foo bar").data, ("baz").data] := by decide

/-- C5 (amended): a token with no `=` is absorbed rather than skipped — the
next expression's key is everything before the next `=` in the remainder
(the malformed token merged with the following key), and tokens after it
still parse; when no `=` remains at all, parseBpfStateExpr returns no
expression with its input unconsumed, which stops the comment loop. -/
theorem stateExpr_no_equals_stops (s : Str) (h : ∀ c ∈ s, c ≠ '=') :
    parseBpfStateExpr s = (none, s) ∧
    ((parseBpfStateExprs (("; foo bar=1 baz=2").data)).1.map BpfStateExpr.id)
      = [("foo bar").data, ("baz").data] ∧
    ((parseBpfStateExprs (("; foo bar=1 baz=2").data)).1.map BpfStateExpr.value)
      = [("1").data, ("2").data] := by
  refine ⟨?_, by decide, by decide⟩
  unfold parseBpfStateExpr
  have hnone : s.findIdx? (fun c => c == '=') = none := by
    rw [List.findIdx?_eq_none_iff]
    intro c hc
    simpa using h c hc
  rw [hnone]

/-- C5 witness: a comment tail with no `=` produces no expression. -/
theorem stateExpr_no_equals_stops_witness :
    parseBpfStateExpr (("junk").data) = (none, ("junk").data) :=
  (stateExpr_no_equals_stops (("junk").data) (by decide)).1

/-- C6: counterexample — in `1: (7b) *(u64 *)(r10 -24) = r2` the destination
is a frame-pointer memory reference with address register r10, yet the
reads-set is exactly [r2]: an FP reference's address register is not read
(only MEM references contribute their base register). -/
theorem fp_memref_base_not_read :
    ((parseLine (("1: (7b) *(u64 *)(r10 -24) = r2").data)).bpfIns.map BpfInstruction.reads)
      = some [("r2").data] ∧
    (((parseLine (("1: (7b) *(u64 *)(r10 -24) = r2").data)).bpfIns.bind BpfInstruction.alu).map
      (fun a => (a.dst.type, a.dst.memref)))
      = some (OperandType.FP, some { address_reg := ("r10").data, offset := -24 }) ∧
    ¬ (("r10").data ∈
        (((parseLine (("1: (7b) *(u64 *)(r10 -24) = r2").data)).bpfIns.map
          BpfInstruction.reads).getD [])) := by decide

/-- C6 (amended): for every successfully parsed ALU/LD/ST instruction, the
writes-set is exactly the destination id, and a slot is in the reads-set
exactly when it is the destination id under a compound operator, the address
register of a MEM (non-frame-pointer) operand, or the source id when the
source is not an immediate; frame-pointer references contribute their fp
slot id as operand id, not their address register. -/
theorem alu_reads_writes_rule (s : Str) (oc : BpfOpcode) (ins : BpfInstruction)
    (rest : Str) (a : BpfAluInstruction)
    (h : parseAluInstruction s oc = (some ins, rest)) (ha : ins.alu = some a) :
    ins.writes = [a.dst.id] ∧
    (∀ r : Str, r ∈ ins.reads ↔
      ((a.operator ≠ ("=").data ∧ r = a.dst.id) ∨
       (a.src.type = OperandType.MEM ∧ (a.src.memref.map MemRef.address_reg) = some r) ∨
       (a.dst.type = OperandType.MEM ∧ (a.dst.memref.map MemRef.address_reg) = some r) ∨
       (a.src.type ≠ OperandType.IMM ∧ r = a.src.id))) := by
  unfold parseAluInstruction at h
  rcases hd : parseAluDst s with ⟨od, dRest⟩
  rw [hd] at h
  cases od with
  | none => simp at h
  | some dst0 =>
    dsimp only at h
    rcases hop : findOperator BPF_ALU_OPERATORS (consumeSpaces dRest) with _ | ⟨operator, rest2⟩ <;>
      rw [hop] at h
    · simp at h
    · dsimp only at h
      rcases hs : parseAluSrc rest2 with ⟨os, sRest⟩
      rw [hs] at h
      cases os with
      | none => simp at h
      | some src0 =>
        dsimp only at h
        simp only [Prod.mk.injEq, Option.some.injEq] at h
        obtain ⟨h1, _⟩ := h
        rw [← h1] at ha
        simp only [Option.some.injEq] at ha
        rw [← h1, ← ha]
        refine ⟨rfl, fun r => ?_⟩
        by_cases c1 : operator ≠ ("=").data <;>
          by_cases c2 : src0.type = OperandType.MEM <;>
            by_cases c3 : dst0.type = OperandType.MEM <;>
              by_cases c4 : src0.type ≠ OperandType.IMM <;>
                simp [collectReads, c1, c2, c3, c4, List.mem_append,
                      Option.mem_toList, Option.mem_def]

/-- C6 witness: `r3 += 1` writes [r3] and reads its destination. -/
theorem alu_reads_writes_rule_witness :
    c6Ins.writes = [c6Alu.dst.id] ∧ ("r3").data ∈ c6Ins.reads := by
  obtain ⟨hw, hmem⟩ := alu_reads_writes_rule (("r3 += 1").data) c6Oc c6Ins c6Rest c6Alu
    (by decide) (by decide)
  exact ⟨hw, (hmem (("r3").data)).2 (Or.inl ⟨by decide, by decide⟩)⟩

/-- C7: every parsed CALL instruction reads exactly the scratch registers
r1-r5; when its target starts with pc+/pc- it is a BPF2BPF_CALL writing r0
and the callee-saved registers r6-r9, otherwise it is a HELPER_CALL writing
r0 and the scratch registers; in particular `7: (85) call
bpf_probe_read_user#112` is a HELPER_CALL on that target reading r1 and
writing r0. -/
theorem call_classification (s : Str) (oc : BpfOpcode) (ins : BpfInstruction)
    (rest : Str) (j : BpfJmpInstruction)
    (h : parseCall s oc = (some ins, rest)) (hj : ins.jmp = some j) :
    ins.reads = BPF_SCRATCH_REGS ∧
    (isPcTarget j.target = true →
      j.kind = BpfJmpKind.BPF2BPF_CALL ∧ ins.writes = ("r0").data :: BPF_CALLEE_SAVED_REGS) ∧
    (isPcTarget j.target = false →
      j.kind = BpfJmpKind.HELPER_CALL ∧ ins.writes = ("r0").data :: BPF_SCRATCH_REGS) ∧
    ((c7Line.bpfIns.bind BpfInstruction.jmp).map BpfJmpInstruction.kind
      = some BpfJmpKind.HELPER_CALL ∧
     (c7Line.bpfIns.bind BpfInstruction.jmp).map BpfJmpInstruction.target
      = some ("bpf_probe_read_user#112").data ∧
     ("r1").data ∈ (c7Line.bpfIns.map BpfInstruction.reads).getD [] ∧
     ("r0").data ∈ (c7Line.bpfIns.map BpfInstruction.writes).getD []) := by
  unfold parseCall at h
  rcases hct : reCallTarget s with ⟨m, rest0⟩
  rw [hct] at h
  cases m with
  | none => simp at h
  | some target =>
    dsimp only at h
    by_cases hp : isPcTarget target = true
    · simp only [hp, if_true, Prod.mk.injEq, Option.some.injEq] at h
      obtain ⟨h1, _⟩ := h
      rw [← h1] at hj
      simp only [bpf2bpfCall, Option.some.injEq] at hj
      refine ⟨by rw [← h1]; rfl, fun _ => ?_, fun hfalse => ?_, by decide, by decide, by decide, by decide⟩
      · rw [← hj]
        exact ⟨rfl, by rw [← h1]; rfl⟩
      · rw [← hj] at hfalse
        rw [hp] at hfalse
        cases hfalse
    · rw [if_neg hp] at h
      simp only [Prod.mk.injEq, Option.some.injEq] at h
      obtain ⟨h1, _⟩ := h
      rw [← h1] at hj
      simp only [helperCall, Option.some.injEq] at hj
      refine ⟨by rw [← h1]; rfl, fun htrue => ?_, fun _ => ?_, by decide, by decide, by decide, by decide⟩
      · rw [← hj] at htrue
        simp only [Bool.not_eq_true] at hp
        rw [hp] at htrue
        cases htrue
      · rw [← hj]
        exact ⟨rfl, by rw [← h1]; rfl⟩

/-- C7 witness: the classification applied to a parsed helper call. -/
theorem call_classification_witness :
    c7Ins.reads = BPF_SCRATCH_REGS ∧
    (isPcTarget c7Jmp.target = false →
      c7Jmp.kind = BpfJmpKind.HELPER_CALL ∧
      c7Ins.writes = ("r0").data :: BPF_SCRATCH_REGS) := by
  obtain ⟨hr, _, hh, _⟩ := call_classification (("call bpf_trace_printk#6").data) c7Oc
    c7Ins c7Res.2 c7Jmp (by decide) (by decide)
  exact ⟨hr, hh⟩

/-- C8: the state-comment value scan is a parenthesis-depth counter ending
only at a depth-zero space or the end of the string (the source's explicit
stack has exactly the depth as its length), so a value with spaces inside
balanced parentheses is returned whole. -/
theorem stateExpr_value_paren_scan :
    (∀ (s : Str) (stack : List Char), scanLen s stack = scanDepthSpec s stack.length) ∧
    ((parseBpfStateExprs (("; r1=map_value(off=0 ks=4) r2=7").data)).1.map
      (fun e => (e.id, e.value)))
      = [(("r1").data, ("map_value(off=0 ks=4)").data), (("r2").data, ("7").data)] :=
  ⟨scanLen_eq_scanDepthSpec, by decide⟩

/-- C9: counterexample — state advancement is not free of process-wide
mutable state: a single subprogram-call line appends the saved frame to the
module-level SAVED_BPF_STATES array (threaded explicitly in this model), so
the module-level stack is mutated rather than being function-local. -/
theorem call_line_mutates_saved_states :
    (loadLog [] [("0: (85) call pc+3").data]).2 ≠ ([] : List BpfState) := by decide

/-- C9 (amended): replay is deterministic in the observable AppState — with
any two contents of the module-level SAVED_BPF_STATES stack (such as residue
left behind by other logs), loading the same raw lines yields identical
parsed lines and state snapshots, because parseLine never emits an EXIT
instruction and popStackFrame, the stack's only reader, is unreachable; the
stack itself remains module-level mutable state that call lines grow. -/
theorem replay_deterministic_modulo_saved_states (g1 g2 : List BpfState)
    (raws : List Str) : (loadLog g1 raws).1 = (loadLog g2 raws).1 :=
  loadLoop_fst_indep raws { lines := [], bpfStates := [], selectedLineIdx := 0 } g1 g2

/-- C10: on an ordinary (non-call, non-exit) instruction transition a slot
not written and not reported by the line is carried over exactly when its
previous entry is non-null with a non-empty value string, and every such
carried entry has effect NONE; consequently a slot whose entry is null,
undefined or the empty string stays absent from the value map across every
following run of such transitions. -/
theorem carry_rule_and_absence (g : List BpfState) (s : BpfState) (line : ParsedLine)
    (ls : List ParsedLine) (k : Str)
    (hnd : (s.values.map Prod.fst).Nodup)
    (ht : line.type = ParsedLineType.INSTRUCTION)
    (h1 : lineJmpKind line ≠ BpfJmpKind.BPF2BPF_CALL)
    (h2 : lineJmpKind line ≠ BpfJmpKind.EXIT)
    (hw : k ∉ (line.bpfIns.map BpfInstruction.writes).getD [])
    (he : k ∉ line.bpfStateExprs.map BpfStateExpr.id)
    (hall : ∀ l ∈ ls, ordAvoids k l)
    (hne : ls ≠ []) :
    jsGet (nextBpfState g s line).2.values k
      = (carryVal s.values k).map (fun str => some { value := some str, effect := Effect.NONE }) ∧
    (carryVal s.values k = none → jsGet (runOrd g s ls).values k = none) :=
  ⟨next_ordinary_values_get g s line k hnd ht h1 h2 hw he,
   fun hcv => (runOrd_absent k ls g s hnd hcv hall).2 hne⟩

/-- C10 witness: r2 (null in the initial state) stays absent across an
ordinary transition that does not mention it. -/
theorem carry_rule_and_absence_witness :
    jsGet (nextBpfState [] initialBpfState c10Line).2.values (("r2").data)
      = (carryVal initialBpfState.values (("r2").data)).map
          (fun str => some { value := some str, effect := Effect.NONE }) ∧
    (carryVal initialBpfState.values (("r2").data) = none →
      jsGet (runOrd [] initialBpfState [c10Line]).values (("r2").data) = none) :=
  carry_rule_and_absence [] initialBpfState c10Line [c10Line] (("r2").data)
    (by decide) (by decide) (by decide) (by decide) (by decide) (by decide)
    (by decide) (by decide)

end Bpfvv
